import Mathlib

/-!
Verification of the event-capture core of `src/background.ts` from the
posthog-event-debugger repository: a bounded, durable event buffer with
insertion at the head, budget-driven eviction from the tail, lazy
single-flight loading from a key/value backing store, and bounded
save-retry with progressive eviction.

The shallow embedding below translates the module-level state and the
functions of `background.ts` into pure Lean definitions.  External
collaborators (the `pako` decompressor, `JSON.parse`, the `URL` parser,
`Date.now`/`Math.random` id generation, and `chrome.storage.local`) are
passed in as explicit function parameters, matching how the source treats
them as opaque host services.
-/

namespace PosthogDebugger

/-- Model of the JSON documents produced by `JSON.parse` on a decompressed
payload.  Numbers are modelled as integers (the claims under study never
depend on fractional values, only on JavaScript truthiness of `0`). -/
inductive Json where
  | null : Json
  | bool (b : Bool) : Json
  | num (n : Int) : Json
  | str (s : String) : Json
  | arr (xs : List Json) : Json
  | obj (kvs : List (String × Json)) : Json

/-- JavaScript truthiness of a JSON value, as used by the source's
`if (decodedBatch && !error)` guard and by
`event.decoded ? ... : 0` in `estimateEventSize`. -/
def Json.truthy : Json → Bool
  | Json.null => false
  | Json.bool b => b
  | Json.num n => n != 0
  | Json.str s => s != ""
  | Json.arr _ => true
  | Json.obj _ => true

mutual

/-- Model of the `JSON.stringify` builtin as used by `estimateEventSize`
(string escaping is not modelled; the result is used only as a
deterministic size source, which is all the source requires of it). -/
def Json.stringify : Json → String
  | Json.null => "null"
  | Json.bool true => "true"
  | Json.bool false => "false"
  | Json.num n => toString n
  | Json.str s => "\"" ++ s ++ "\""
  | Json.arr xs => "[" ++ Json.stringifyArr xs ++ "]"
  | Json.obj kvs => "\x7b" ++ Json.stringifyObj kvs ++ "\x7d"

/-- Comma-separated serialization of a JSON array body. -/
def Json.stringifyArr : List Json → String
  | [] => ""
  | [j] => Json.stringify j
  | j :: rest => Json.stringify j ++ "," ++ Json.stringifyArr rest

/-- Comma-separated serialization of a JSON object body. -/
def Json.stringifyObj : List (String × Json) → String
  | [] => ""
  | [kv] => "\"" ++ kv.1 ++ "\":" ++ Json.stringify kv.2
  | kv :: rest => "\"" ++ kv.1 ++ "\":" ++ Json.stringify kv.2 ++ "," ++ Json.stringifyObj rest

end

/-- The `PostHogEvent` record from `src/types.ts`.  `rawData` is the
optional retained byte list (`number[]` in the source), `decoded` is the
parsed document (`DecodedEvent | null` in the source, so a JavaScript
`null` is modelled as `Json.null`), `error` the optional decode-failure
reason. -/
structure PostHogEvent where
  id : String
  timestamp : String
  url : String
  domain : String
  rawData : Option (List Nat)
  decoded : Json
  error : Option String

/-- Function `estimateEventSize` from `background.ts` (lines 14-19):
double-counted serialized size of the decoded document (JavaScript
truthiness guard), plus retained raw byte count, plus double-counted
metadata string lengths. -/
def estimateEventSize (e : PostHogEvent) : Nat :=
  let decodedSize := if e.decoded.truthy then e.decoded.stringify.length * 2 else 0
  let rawDataSize := match e.rawData with
    | some bytes => bytes.length
    | none => 0
  let metadataSize := (e.url.length + e.id.length + e.timestamp.length + e.domain.length) * 2
  decodedSize + rawDataSize + metadataSize

/-- Constant `MAX_STORED_SIZE_BYTES = 8 * 1024 * 1024` (the ceiling). -/
def MAX_STORED_SIZE_BYTES : Int := 8 * 1024 * 1024

/-- Constant `CLEANUP_SIZE_BYTES = 2 * 1024 * 1024` (the target-free amount). -/
def CLEANUP_SIZE_BYTES : Int := 2 * 1024 * 1024

/-- The module-level mutable state `events` / `currentSizeBytes` of
`background.ts`.  `currentSizeBytes` is an integer, kept nonnegative by
the source's `Math.max(0, ...)` guard in `cleanupOldEvents`. -/
structure StoreState where
  events : List PostHogEvent
  currentSizeBytes : Int

/-- Model of JavaScript `Array.prototype.pop`: split a list into its
leading part and its last element, or `none` when empty. -/
def popLast {α : Type} : List α → Option (List α × α)
  | [] => none
  | [a] => some ([], a)
  | a :: b :: rest =>
    match popLast (b :: rest) with
    | some (l, lastEl) => some (a :: l, lastEl)
    | none => none

/-- The `while (freedBytes < bytesToFree && events.length > 0)` loop of
`cleanupOldEvents` (lines 29-34), popping the oldest (tail) record and
accumulating its estimated size into `freedBytes`.  The loop removes one
element per iteration, so running it with `fuel` equal to the initial
list length is exactly the source's unbounded loop.  It is generalized
over the element type and the size function so that the ghost-tagged
store used for the order invariant can reuse it verbatim with
`estimateEventSize` on the payload component. -/
def cleanupLoop {α : Type} (est : α → Nat) (bytesToFree : Int) :
    Nat → List α → Nat → List α × Nat
  | 0, evs, freed => (evs, freed)
  | fuel + 1, evs, freed =>
    if (freed : Int) < bytesToFree then
      match popLast evs with
      | some (rest, oldest) => cleanupLoop est bytesToFree fuel rest (freed + est oldest)
      | none => (evs, freed)
    else (evs, freed)

/-- Function `cleanupOldEvents(bytesToFree)` (lines 25-43): run the eviction loop
from the tail, then set `currentSizeBytes = Math.max(0, currentSizeBytes - freedBytes)`. -/
def cleanupOldEvents (bytesToFree : Int) (s : StoreState) : StoreState :=
  let r := cleanupLoop estimateEventSize bytesToFree s.events.length s.events 0
  { events := r.1, currentSizeBytes := max 0 (s.currentSizeBytes - (r.2 : Int)) }

/-- Sum of the per-record size estimates of a list of events; this is the
quantity `recomputeSize` (lines 21-23) assigns to `currentSizeBytes`. -/
def sumEst (evs : List PostHogEvent) : Nat :=
  (evs.map estimateEventSize).sum

/-- Invariant: `currentSizeBytes` agrees with the true sum of per-record estimates:
the store-state invariant of the spec's data model section. -/
def sizeInv (s : StoreState) : Prop :=
  s.currentSizeBytes = (sumEst s.events : Int)

/-- Outcome of `persistEventsWithTrim`: the save succeeded, or a save
failed while the event list was already empty (line 74-77, gives up at
once), or all six attempts failed (line 84). -/
inductive PersistResult where
  | success : PersistResult
  | emptyFailure : PersistResult
  | exhausted : PersistResult
deriving DecidableEq

/-- The retry eviction amount of line 80:
`Math.max(CLEANUP_SIZE_BYTES, Math.floor(currentSizeBytes * 0.25))`.
For the integers in range, multiplying by the exactly-representable
`0.25` and flooring is floor division by 4, i.e. `Int.fdiv`. -/
def retryEvictAmount (c : Int) : Int :=
  max CLEANUP_SIZE_BYTES (Int.fdiv c 4)

/-- The `while (attempts < 6)` loop of `persistEventsWithTrim`
(lines 65-85).  `save` models the `chrome.storage.local.set` collaborator
(it may inspect the attempt index and the list being written and accept
or reject it); `fuel` is the number of remaining permitted attempts, so
the source's loop is this definition at `fuel = 6`.  The returned `Nat`
counts save attempts actually issued. -/
def persistLoop (save : Nat → List PostHogEvent → Bool) :
    Nat → StoreState → Nat → StoreState × PersistResult × Nat
  | 0, s, calls => (s, PersistResult.exhausted, calls)
  | fuel + 1, s, calls =>
    if save calls s.events then (s, PersistResult.success, calls + 1)
    else if s.events.length = 0 then (s, PersistResult.emptyFailure, calls + 1)
    else
      persistLoop save fuel
        (cleanupOldEvents (retryEvictAmount s.currentSizeBytes) s) (calls + 1)

/-- Function `persistEventsWithTrim` (lines 65-85): the retry loop started with
`attempts = 0` against the cap of 6. -/
def persistEventsWithTrim (save : Nat → List PostHogEvent → Bool) (s : StoreState) :
    StoreState × PersistResult × Nat :=
  persistLoop save 6 s 0

/-- The over-budget trim shared by the load path (lines 97-100) and the
capture overflow check (lines 207-209):
`if (currentSizeBytes > MAX_STORED_SIZE_BYTES) cleanupOldEvents(currentSizeBytes - MAX_STORED_SIZE_BYTES + CLEANUP_SIZE_BYTES)`. -/
def overflowTrim (s : StoreState) : StoreState :=
  if s.currentSizeBytes > MAX_STORED_SIZE_BYTES then
    cleanupOldEvents (s.currentSizeBytes - MAX_STORED_SIZE_BYTES + CLEANUP_SIZE_BYTES) s
  else s

/-- The body of the single-flight load (lines 91-103): take the stored
value under the events key (`none` models both an absent key and a
non-array value, per the `Array.isArray` check of line 94), recompute the
running total, and if over budget trim and persist the trimmed result. -/
def ensureEventsLoaded (stored : Option (List PostHogEvent))
    (save : Nat → List PostHogEvent → Bool) : StoreState :=
  let s : StoreState := ⟨stored.getD [], (sumEst (stored.getD []) : Int)⟩
  if s.currentSizeBytes > MAX_STORED_SIZE_BYTES then
    (persistEventsWithTrim save (overflowTrim s)).1
  else s

/-- The `captureEvent` request payload `{ url, data, timestamp? }` of the
message protocol (`request.data` is the raw byte list). -/
structure CaptureRequest where
  url : String
  data : List Nat
  timestamp : Option String

/-- The host collaborators the capture handler depends on:
`decode` models `decodePostHogEvent` (lines 122-130, `pako.ungzip`
followed by `JSON.parse`, any thrown error surfacing as the failure
reason); `domainOf` models `extractDomain` (lines 108-120, built on the
`URL` platform parser); `ids` models the per-inserted-record
`Date.now()-Math.random()` identifier; `now` models
`new Date().toISOString()`; `save` models `chrome.storage.local.set`. -/
structure CaptureEnv where
  decode : List Nat → Except String Json
  domainOf : String → String
  ids : Nat → String
  now : String
  save : Nat → List PostHogEvent → Bool

/-- Expression `request.timestamp || new Date().toISOString()` (lines 182, 195):
a missing or falsy (empty) caller timestamp falls back to ingestion
time. -/
def resolveTimestamp (env : CaptureEnv) (req : CaptureRequest) : String :=
  match req.timestamp with
  | some t => if t = "" then env.now else t
  | none => env.now

/-- The record built for one successfully decoded batch element
(lines 180-187): `decoded` set, `error: undefined`, no `rawData`. -/
def buildDecodedEvent (env : CaptureEnv) (req : CaptureRequest) (i : Nat) (j : Json) :
    PostHogEvent :=
  { id := env.ids i
    timestamp := resolveTimestamp env req
    url := req.url
    domain := env.domainOf req.url
    rawData := none
    decoded := j
    error := none }

/-- The record built when decode fails (lines 193-201): `rawData` keeps
the original request bytes, `decoded: null`, `error` set. -/
def buildErrorEvent (env : CaptureEnv) (req : CaptureRequest) (reason : String) :
    PostHogEvent :=
  { id := env.ids 0
    timestamp := resolveTimestamp env req
    url := req.url
    domain := env.domainOf req.url
    rawData := some req.data
    decoded := Json.null
    error := some reason }

/-- One insertion (lines 189-190 and 203-204):
`currentSizeBytes += estimateEventSize(event); events.unshift(event)`. -/
def insertEvent (e : PostHogEvent) (s : StoreState) : StoreState :=
  { events := e :: s.events
    currentSizeBytes := s.currentSizeBytes + (estimateEventSize e : Int) }

/-- Expression `Array.isArray(decodedBatch) ? decodedBatch : [decodedBatch]`
(line 177). -/
def batchToList : Json → List Json
  | Json.arr xs => xs
  | j => [j]

/-- The `for (const decodedEvent of eventsToAdd)` loop (lines 179-191),
inserting one record per batch element, each with its own generated id. -/
def insertBatch (env : CaptureEnv) (req : CaptureRequest) :
    List Json → Nat → StoreState → StoreState
  | [], _, s => s
  | j :: rest, i, s =>
    insertBatch env req rest (i + 1) (insertEvent (buildDecodedEvent env req i j) s)

/-- The decode-and-insert portion of the capture handler (lines 164-205):
on a thrown decode error insert the single error record; on a truthy
decoded batch insert every element; on a falsy decoded value with no
error insert nothing (`if (decodedBatch && !error) ... else if (error)`). -/
def captureDecodePhase (env : CaptureEnv) (req : CaptureRequest) (s : StoreState) :
    StoreState :=
  match env.decode req.data with
  | Except.ok batch =>
    if batch.truthy then insertBatch env req (batchToList batch) 0 s else s
  | Except.error reason => insertEvent (buildErrorEvent env req reason) s

/-- The complete `captureEvent` handler body (lines 160-224): decode and
insert, run the overflow check, persist with trim, and respond
`{ success: true }` — the response is hard-coded on lines 216 and 220
regardless of every internal outcome. -/
def captureStep (env : CaptureEnv) (req : CaptureRequest) (s : StoreState) :
    StoreState × Bool :=
  ((persistEventsWithTrim env.save (overflowTrim (captureDecodePhase env req s))).1, true)

/-- The `clearEvents` handler body (lines 145-158): reset the store to
empty with a zero running total, then persist. -/
def clearStep (save : Nat → List PostHogEvent → Bool) (_s : StoreState) :
    StoreState × Bool :=
  ((persistEventsWithTrim save ⟨[], 0⟩).1, true)

/-- One completed dispatcher action at a loaded store: the quiescent
points of the data-model invariant are the states between these. -/
inductive DispatchOp where
  | capture (env : CaptureEnv) (req : CaptureRequest) : DispatchOp
  | clear (save : Nat → List PostHogEvent → Bool) : DispatchOp
  | get : DispatchOp

/-- Apply one dispatcher action to the store state. -/
def applyOp (s : StoreState) : DispatchOp → StoreState
  | DispatchOp.capture env req => (captureStep env req s).1
  | DispatchOp.clear save => (clearStep save s).1
  | DispatchOp.get => s

/-- Run a sequence of completed dispatcher actions. -/
def runOps (init : StoreState) (ops : List DispatchOp) : StoreState :=
  ops.foldl applyOp init

/-- Primitive mutations of the event list, for the order invariant:
`insert` is the head insertion `events.unshift(event)` of lines 190 and
204, `evict` is a `cleanupOldEvents(bytesToFree)` call, `clearAll` is the
`events = []` reset of the clear handler. -/
inductive StoreOp where
  | insert (e : PostHogEvent) : StoreOp
  | evict (bytesToFree : Int) : StoreOp
  | clearAll : StoreOp

/-- Ghost-instrumented event list for the order invariant: alongside the
store's own behaviour, each inserted record carries the (monotonically
increasing) sequence number of its insertion.  Eviction runs the same
tail-popping loop as `cleanupOldEvents`, sizing each entry by the
estimate of its payload record. -/
def applyTaggedOp (st : Nat × List (Nat × PostHogEvent)) :
    StoreOp → Nat × List (Nat × PostHogEvent)
  | StoreOp.insert e => (st.1 + 1, (st.1, e) :: st.2)
  | StoreOp.evict b =>
    (st.1, (cleanupLoop (fun p => estimateEventSize p.2) b st.2.length st.2 0).1)
  | StoreOp.clearAll => (st.1, [])

/-- Run a sequence of primitive mutations on the ghost-tagged list,
starting from the empty store. -/
def runTagged (ops : List StoreOp) : Nat × List (Nat × PostHogEvent) :=
  ops.foldl applyTaggedOp (0, [])

/-- Invariant of the ghost-tagged list: every tag is below the insertion
counter and tags strictly decrease from head to tail (head = newest). -/
def tagInv (st : Nat × List (Nat × PostHogEvent)) : Prop :=
  (∀ p ∈ st.2, p.1 < st.1) ∧ st.2.Pairwise (fun p q => q.1 < p.1)

/-- State of the lazy single-flight loader (lines 9-12 of
`background.ts`): the `isLoaded` flag, the shared in-flight `loadPromise`
(identified by a promise id), a fresh-id counter, and a ghost counter of
backing-store `load` (`getStorage`) calls actually issued. -/
structure LoaderState where
  isLoaded : Bool
  loadPromise : Option Nat
  nextPromiseId : Nat
  loadCalls : Nat
deriving DecidableEq

/-- What a caller of `ensureEventsLoaded` ends up awaiting: nothing
(already loaded), or a specific shared load promise. -/
inductive AwaitTarget where
  | immediate : AwaitTarget
  | promise (id : Nat) : AwaitTarget
deriving DecidableEq

/-- Loader state at startup: not loaded, no in-flight load, no backing
load calls issued. -/
def initLoader : LoaderState :=
  ⟨false, none, 0, 0⟩

/-- The synchronous prefix of `ensureEventsLoaded` (lines 87-106) under
JavaScript run-to-completion semantics: if already loaded, return at
once; if a load promise exists, await it; otherwise create the promise
and start its body, which synchronously issues the single backing-store
`getStorage` call before suspending — hence `loadCalls` increments
exactly when a new promise is created.  Every dispatcher action (`get`,
`clear`, `capture`) runs this as its first step. -/
def ensureEventsLoadedStart (s : LoaderState) : LoaderState × AwaitTarget :=
  if s.isLoaded then (s, AwaitTarget.immediate)
  else
    match s.loadPromise with
    | some p => (s, AwaitTarget.promise p)
    | none =>
      (⟨s.isLoaded, some s.nextPromiseId, s.nextPromiseId + 1, s.loadCalls + 1⟩,
        AwaitTarget.promise s.nextPromiseId)

/-- The record shape exclusivity claimed by the spec: either a decoded
record (`decoded` present, i.e. non-null, with `error` and `rawData`
absent) or a failure record (`error` present together with `rawData`,
`decoded` not present) — never both, never neither. -/
def exclusiveShape (e : PostHogEvent) : Prop :=
  (e.decoded ≠ Json.null ∧ e.error = none ∧ e.rawData = none) ∨
  (e.decoded = Json.null ∧ e.error.isSome = true ∧ e.rawData.isSome = true)

/-- The shapes the capture handler actually constructs: a success-branch
record has `error` and `rawData` absent (its `decoded` is whatever batch
element was produced, possibly `null`), and an error-branch record has
`error` and `rawData` present with `decoded` null. -/
def insertedShape (e : PostHogEvent) : Prop :=
  (e.error = none ∧ e.rawData = none) ∨
  (e.decoded = Json.null ∧ e.error.isSome = true ∧ e.rawData.isSome = true)

/-- Modelled from the spec: the eviction amount the spec's store design
section claims for the insert-overflow path — "the larger of a fixed
`target-free` constant and a fraction (25%) of current total size".
Stated separately so it can be compared with the amount the code
actually passes there (`currentSizeBytes - MAX_STORED_SIZE_BYTES +
CLEANUP_SIZE_BYTES`, line 208). -/
def claimedOverflowTarget (c : Int) : Int :=
  max CLEANUP_SIZE_BYTES (Int.fdiv c 4)

/-- A minimal record whose estimated size is exactly `n`: empty metadata
strings, no decoded document, and `n` retained raw bytes. -/
def rawEvt (n : Nat) : PostHogEvent :=
  ⟨"", "", "", "", some (List.replicate n 0), Json.null, some "boom"⟩

/-- A capture environment with a fixed decode outcome, empty generated
ids/timestamps/domains, and a backing store that accepts every save. -/
def constEnv (d : List Nat → Except String Json) : CaptureEnv :=
  ⟨d, fun _ => "", fun _ => "", "", fun _ _ => true⟩

/-- A size-zero record, for exercising the ghost-tagged order model. -/
def tinyEvent : PostHogEvent :=
  ⟨"", "", "", "", none, Json.null, none⟩

/-- The record the capture handler builds for the decoded batch element
`null`: `decoded` is null, yet `error` and `rawData` are absent. -/
def nullRec : PostHogEvent :=
  ⟨"", "", "", "", none, Json.null, none⟩

/-- Environment whose decode always fails (a payload `pako.ungzip`
rejects). -/
def failEnv : CaptureEnv :=
  constEnv (fun _ => Except.error "boom")

/-- A capture request carrying 4718592 raw bytes (4.5 MiB). -/
def c2Req : CaptureRequest :=
  ⟨"", List.replicate 4718592 0, none⟩

/-- A pre-state holding four 1179648-byte (1.125 MiB) records with a
running total equal to their true sum. -/
def c2Pre : StoreState :=
  ⟨[rawEvt 1179648, rawEvt 1179648, rawEvt 1179648, rawEvt 1179648], 4718592⟩

/-- A capture request carrying 9437184 raw bytes (9 MiB), more than the
8 MiB ceiling on its own. -/
def c8Req : CaptureRequest :=
  ⟨"", List.replicate 9437184 0, none⟩

/-- Environment whose decode yields the JSON array `[null]` — a truthy
batch containing a null element. -/
def c9Env : CaptureEnv :=
  constEnv (fun _ => Except.ok (Json.arr [Json.null]))

/-- An empty-payload capture request. -/
def c9Req : CaptureRequest :=
  ⟨"", [], none⟩

/-- Function `popLast` returns `none` exactly on the empty list. -/
theorem popLast_eq_none {α : Type} : (l : List α) → popLast l = none → l = []
  | [], _ => rfl
  | [a], h => by simp [popLast] at h
  | a :: b :: rest, h => by
    rw [popLast] at h
    cases hp : popLast (b :: rest) with
    | some p => rw [hp] at h; simp at h
    | none => exact absurd (popLast_eq_none (b :: rest) hp) (by simp)

/-- Function `popLast` splits off exactly the last element. -/
theorem popLast_eq_some {α : Type} :
    (l : List α) → (r : List α) → (a : α) → popLast l = some (r, a) → l = r ++ [a]
  | [], r, a, h => by simp [popLast] at h
  | [x], r, a, h => by
    simp [popLast] at h
    simp [← h.1, ← h.2]
  | x :: y :: rest, r, a, h => by
    rw [popLast] at h
    cases hp : popLast (y :: rest) with
    | none => rw [hp] at h; simp at h
    | some p =>
      obtain ⟨l2, lastEl⟩ := p
      rw [hp] at h
      simp only [Option.some.injEq, Prod.mk.injEq] at h
      have hrec := popLast_eq_some (y :: rest) l2 lastEl hp
      rw [← h.1, ← h.2]
      simp [hrec]

/-- Specification of the eviction loop, for any fuel at least the list
length (the source loop pops one element per iteration, so such fuel is
never exhausted): the surviving events are a prefix of the input (only
tail records are removed), the freed byte count accounts exactly for the
removed records, and the loop stops only once it has freed the requested
amount or emptied the list. -/
theorem cleanupLoop_spec {α : Type} (est : α → Nat) (b : Int) :
    ∀ (fuel : Nat) (evs : List α) (freed : Nat), evs.length ≤ fuel →
      (cleanupLoop est b fuel evs freed).1 <+: evs ∧
      (cleanupLoop est b fuel evs freed).2 + ((cleanupLoop est b fuel evs freed).1.map est).sum
        = freed + (evs.map est).sum ∧
      (b ≤ ((cleanupLoop est b fuel evs freed).2 : Int) ∨ (cleanupLoop est b fuel evs freed).1 = []) := by
  intro fuel
  induction fuel with
  | zero =>
    intro evs freed hlen
    have hevs : evs = [] := List.eq_nil_of_length_eq_zero (Nat.le_zero.mp hlen)
    subst hevs
    simp [cleanupLoop]
  | succ fuel ih =>
    intro evs freed hlen
    rw [cleanupLoop]
    by_cases hf : (freed : Int) < b
    · rw [if_pos hf]
      cases hp : popLast evs with
      | none =>
        have hevs : evs = [] := popLast_eq_none evs hp
        subst hevs
        simp
      | some p =>
        obtain ⟨rest, oldest⟩ := p
        have hev : evs = rest ++ [oldest] := popLast_eq_some evs rest oldest hp
        have hlen2 : rest.length ≤ fuel := by
          rw [hev] at hlen; simp at hlen; omega
        obtain ⟨ih1, ih2, ih3⟩ := ih rest (freed + est oldest) hlen2
        refine ⟨ih1.trans (hev ▸ List.prefix_append rest [oldest]), ?_, ih3⟩
        rw [hev]
        simp only [List.map_append, List.sum_append, List.map_cons, List.sum_cons,
          List.map_nil, List.sum_nil]
        omega
    · rw [if_neg hf]
      exact ⟨List.prefix_rfl, rfl, Or.inl (le_of_not_lt hf)⟩

/-- The surviving events of `cleanupOldEvents` are a prefix of the input:
eviction only removes records from the tail. -/
theorem cleanupOldEvents_front (b : Int) (s : StoreState) :
    (cleanupOldEvents b s).events <+: s.events :=
  (cleanupLoop_spec estimateEventSize b s.events.length s.events 0 le_rfl).1

/-- Eviction via `cleanupOldEvents` preserves the agreement between `currentSizeBytes`
and the true sum of estimates (the `Math.max(0, ...)` guard never fires
below the true remaining sum). -/
theorem cleanupOldEvents_sizeInv (b : Int) {s : StoreState} (h : sizeInv s) :
    sizeInv (cleanupOldEvents b s) := by
  obtain ⟨-, hsum, -⟩ := cleanupLoop_spec estimateEventSize b s.events.length s.events 0 le_rfl
  unfold sizeInv cleanupOldEvents at *
  have hx : s.currentSizeBytes
      - ((cleanupLoop estimateEventSize b s.events.length s.events 0).2 : Int)
      = (sumEst (cleanupLoop estimateEventSize b s.events.length s.events 0).1 : Int) := by
    unfold sumEst at *
    omega
  simp only [hx]
  exact max_eq_right (Int.natCast_nonneg _)

/-- Numeric value of the ceiling. -/
theorem MAX_eq : MAX_STORED_SIZE_BYTES = 8388608 := by norm_num [MAX_STORED_SIZE_BYTES]

/-- Numeric value of the target-free amount. -/
theorem CLEANUP_eq : CLEANUP_SIZE_BYTES = 2097152 := by norm_num [CLEANUP_SIZE_BYTES]

/-- After the shared over-budget trim, the running total is at or below
the ceiling (when the running total agrees with the true sum, the trim
either frees the requested `total - ceiling + target-free` bytes or
empties the store, whose total is then zero). -/
theorem overflowTrim_le {s : StoreState} (h : sizeInv s) :
    (overflowTrim s).currentSizeBytes ≤ MAX_STORED_SIZE_BYTES := by
  by_cases hover : s.currentSizeBytes > MAX_STORED_SIZE_BYTES
  · obtain ⟨-, hsum, hstop⟩ := cleanupLoop_spec estimateEventSize
      (s.currentSizeBytes - MAX_STORED_SIZE_BYTES + CLEANUP_SIZE_BYTES)
      s.events.length s.events 0 le_rfl
    simp only [overflowTrim]
    rw [if_pos hover]
    simp only [cleanupOldEvents, max_le_iff]
    have hM : MAX_STORED_SIZE_BYTES = 8388608 := MAX_eq
    have hC : CLEANUP_SIZE_BYTES = 2097152 := CLEANUP_eq
    unfold sizeInv at h
    unfold sumEst at *
    cases hstop with
    | inl hfreed => omega
    | inr hempty =>
      rw [hempty] at hsum
      simp at hsum
      omega
  · simp only [overflowTrim]
    rw [if_neg hover]
    exact le_of_not_lt hover

/-- The over-budget trim preserves the size-accounting invariant. -/
theorem overflowTrim_sizeInv {s : StoreState} (h : sizeInv s) :
    sizeInv (overflowTrim s) := by
  unfold overflowTrim
  by_cases hover : s.currentSizeBytes > MAX_STORED_SIZE_BYTES
  · rw [if_pos hover]; exact cleanupOldEvents_sizeInv _ h
  · rw [if_neg hover]; exact h

/-- The over-budget trim never adds records: its result is a prefix of
the input events. -/
theorem overflowTrim_front (s : StoreState) :
    (overflowTrim s).events <+: s.events := by
  unfold overflowTrim
  by_cases hover : s.currentSizeBytes > MAX_STORED_SIZE_BYTES
  · rw [if_pos hover]; exact cleanupOldEvents_front _ s
  · rw [if_neg hover]

/-- The retry loop issues at most `fuel` save attempts beyond the count
it starts with. -/
theorem persistLoop_calls_le (save : Nat → List PostHogEvent → Bool) :
    ∀ (fuel : Nat) (s : StoreState) (calls : Nat),
      (persistLoop save fuel s calls).2.2 ≤ calls + fuel := by
  intro fuel
  induction fuel with
  | zero => intro s calls; simp [persistLoop]
  | succ fuel ih =>
    intro s calls
    rw [persistLoop]
    by_cases hs : save calls s.events
    · rw [if_pos hs]; simp
    · rw [if_neg hs]
      by_cases he : s.events.length = 0
      · rw [if_pos he]; simp
      · rw [if_neg he]
        calc (persistLoop save fuel _ (calls + 1)).2.2 ≤ calls + 1 + fuel := ih _ _
          _ = calls + (fuel + 1) := by omega

/-- The retry loop preserves the size-accounting invariant (each retry
only runs `cleanupOldEvents`). -/
theorem persistLoop_sizeInv (save : Nat → List PostHogEvent → Bool) :
    ∀ (fuel : Nat) (s : StoreState) (calls : Nat), sizeInv s →
      sizeInv (persistLoop save fuel s calls).1 := by
  intro fuel
  induction fuel with
  | zero => intro s calls h; simpa [persistLoop] using h
  | succ fuel ih =>
    intro s calls h
    rw [persistLoop]
    by_cases hs : save calls s.events
    · rw [if_pos hs]; exact h
    · rw [if_neg hs]
      by_cases he : s.events.length = 0
      · rw [if_pos he]; exact h
      · rw [if_neg he]
        exact ih _ _ (cleanupOldEvents_sizeInv _ h)

/-- The retry loop never adds records: its resulting events are a prefix
of the events it started from. -/
theorem persistLoop_front (save : Nat → List PostHogEvent → Bool) :
    ∀ (fuel : Nat) (s : StoreState) (calls : Nat),
      (persistLoop save fuel s calls).1.events <+: s.events := by
  intro fuel
  induction fuel with
  | zero => intro s calls; simp [persistLoop]
  | succ fuel ih =>
    intro s calls
    rw [persistLoop]
    by_cases hs : save calls s.events
    · rw [if_pos hs]
    · rw [if_neg hs]
      by_cases he : s.events.length = 0
      · rw [if_pos he]
      · rw [if_neg he]
        exact (ih _ _).trans (cleanupOldEvents_front _ s)

/-- Insertion adds the new record's estimate to the running total, so it
preserves the size-accounting invariant. -/
theorem insertEvent_sizeInv (e : PostHogEvent) {s : StoreState} (h : sizeInv s) :
    sizeInv (insertEvent e s) := by
  unfold sizeInv insertEvent sumEst at *
  simp only [List.map_cons, List.sum_cons]
  omega

/-- Batch insertion preserves the size-accounting invariant. -/
theorem insertBatch_sizeInv (env : CaptureEnv) (req : CaptureRequest) :
    ∀ (js : List Json) (i : Nat) (s : StoreState), sizeInv s →
      sizeInv (insertBatch env req js i s) := by
  intro js
  induction js with
  | nil => intro i s h; exact h
  | cons j rest ih =>
    intro i s h
    exact ih _ _ (insertEvent_sizeInv _ h)

/-- The decode-and-insert phase preserves the size-accounting invariant. -/
theorem captureDecodePhase_sizeInv (env : CaptureEnv) (req : CaptureRequest)
    {s : StoreState} (h : sizeInv s) : sizeInv (captureDecodePhase env req s) := by
  unfold captureDecodePhase
  split
  · split
    · exact insertBatch_sizeInv env req _ 0 s h
    · exact h
  · exact insertEvent_sizeInv _ h

/-- Every completed dispatcher action preserves the size-accounting
invariant. -/
theorem applyOp_sizeInv {s : StoreState} (op : DispatchOp) (h : sizeInv s) :
    sizeInv (applyOp s op) := by
  cases op with
  | capture env req =>
    exact persistLoop_sizeInv env.save 6 _ 0
      (overflowTrim_sizeInv (captureDecodePhase_sizeInv env req h))
  | clear save =>
    exact persistLoop_sizeInv save 6 ⟨[], 0⟩ 0 (by simp [sizeInv, sumEst])
  | get => exact h

/-- The load path establishes the size-accounting invariant
(`recomputeSize` sets the total to the true sum; the optional trim and
persist preserve it). -/
theorem ensureEventsLoaded_sizeInv (stored : Option (List PostHogEvent))
    (save : Nat → List PostHogEvent → Bool) :
    sizeInv (ensureEventsLoaded stored save) := by
  unfold ensureEventsLoaded
  have hbase : sizeInv ⟨stored.getD [], (sumEst (stored.getD []) : Int)⟩ := rfl
  by_cases hover :
      (⟨stored.getD [], (sumEst (stored.getD []) : Int)⟩ : StoreState).currentSizeBytes
        > MAX_STORED_SIZE_BYTES
  · rw [if_pos hover]
    exact persistLoop_sizeInv save 6 _ 0 (overflowTrim_sizeInv hbase)
  · rw [if_neg hover]
    exact hbase

/-- Running any sequence of completed dispatcher actions preserves the
size-accounting invariant. -/
theorem runOps_sizeInv : ∀ (ops : List DispatchOp) (s : StoreState), sizeInv s →
    sizeInv (runOps s ops) := by
  intro ops
  induction ops with
  | nil => intro s h; exact h
  | cons op rest ih =>
    intro s h
    exact ih _ (applyOp_sizeInv op h)

/-- Popping a list that ends in `a` yields `a` and the leading part. -/
theorem popLast_concat {α : Type} : ∀ (l : List α) (a : α), popLast (l ++ [a]) = some (l, a)
  | [], _ => rfl
  | [_], _ => rfl
  | x :: y :: rest, a => by
    have ih := popLast_concat (y :: rest) a
    show popLast (x :: ((y :: rest) ++ [a])) = _
    rw [List.cons_append, popLast]
    rw [List.cons_append] at ih
    rw [ih]

/-- The eviction loop on an empty list returns at once, for any fuel. -/
theorem cleanupLoop_nil {α : Type} (est : α → Nat) (b : Int) :
    ∀ (fuel : Nat) (freed : Nat), cleanupLoop est b fuel [] freed = ([], freed)
  | 0, _ => rfl
  | fuel + 1, freed => by
    rw [cleanupLoop]
    by_cases hf : (freed : Int) < b
    · rw [if_pos hf]; rfl
    · rw [if_neg hf]

/-- One iteration of the eviction loop pops the last element when the
freed amount is still short of the request. -/
theorem cleanupLoop_concat {α : Type} (est : α → Nat) (b : Int) (fuel : Nat)
    (l : List α) (a : α) (freed : Nat) (hf : (freed : Int) < b) :
    cleanupLoop est b (fuel + 1) (l ++ [a]) freed = cleanupLoop est b fuel l (freed + est a) := by
  rw [cleanupLoop, if_pos hf, popLast_concat]

/-- The eviction loop stops as soon as the freed amount reaches the
request. -/
theorem cleanupLoop_stop {α : Type} (est : α → Nat) (b : Int) (fuel : Nat)
    (evs : List α) (freed : Nat) (hf : ¬ (freed : Int) < b) :
    cleanupLoop est b fuel evs freed = (evs, freed) := by
  cases fuel with
  | zero => rfl
  | succ fuel => rw [cleanupLoop, if_neg hf]

/-- Evaluation helper: the surviving events of `cleanupOldEvents` are
the first component of the eviction loop's result. -/
theorem cleanupOldEvents_events_eq {bytesToFree : Int} {s : StoreState}
    {evs2 : List PostHogEvent} {freed : Nat}
    (h : cleanupLoop estimateEventSize bytesToFree s.events.length s.events 0 = (evs2, freed)) :
    (cleanupOldEvents bytesToFree s).events = evs2 := by
  show (cleanupLoop estimateEventSize bytesToFree s.events.length s.events 0).1 = evs2
  rw [h]

/-- On a singleton list whose element reaches the requested amount, the
eviction loop removes exactly that element. -/
theorem cleanupLoop_singleton {α : Type} (est : α → Nat) (b : Int) (fuel : Nat) (a : α)
    (hb : (0 : Int) < b) (hstop : b ≤ (est a : Int)) :
    cleanupLoop est b (fuel + 1) [a] 0 = ([], est a) := by
  have h1 : cleanupLoop est b (fuel + 1) ([] ++ [a]) 0 = cleanupLoop est b fuel [] (0 + est a) :=
    cleanupLoop_concat est b fuel [] a 0 (by exact_mod_cast hb)
  simp only [List.nil_append, Nat.zero_add] at h1
  rw [h1, cleanupLoop_stop est b fuel [] (est a) (by omega)]

/-- The size estimate of the minimal raw-bytes record is its byte
count. -/
theorem est_rawEvt (n : Nat) : estimateEventSize (rawEvt n) = n := by
  simp [estimateEventSize, rawEvt, Json.truthy]

/-- A save the backing store accepts ends the retry loop at once with
the state unchanged. -/
theorem persistLoop_save_ok (save : Nat → List PostHogEvent → Bool) (fuel : Nat)
    (s : StoreState) (calls : Nat) (h : save calls s.events = true) :
    persistLoop save (fuel + 1) s calls = (s, PersistResult.success, calls + 1) := by
  rw [persistLoop, if_pos h]

/-- Under a backing store that accepts the first save,
`persistEventsWithTrim` succeeds immediately with the state unchanged. -/
theorem persistEventsWithTrim_save_ok (save : Nat → List PostHogEvent → Bool)
    (s : StoreState) (h : save 0 s.events = true) :
    persistEventsWithTrim save s = (s, PersistResult.success, 1) := by
  unfold persistEventsWithTrim
  rw [show (6 : Nat) = 5 + 1 from rfl, persistLoop_save_ok save 5 s 0 h]

/-- A failed save on an already-empty list makes the retry loop give up
at once, reporting the failure, after that single attempt. -/
theorem persistLoop_fail_empty (save : Nat → List PostHogEvent → Bool) (fuel : Nat)
    (s : StoreState) (calls : Nat) (hempty : s.events.length = 0)
    (hfail : save calls s.events = false) :
    persistLoop save (fuel + 1) s calls = (s, PersistResult.emptyFailure, calls + 1) := by
  rw [persistLoop, if_neg (by rw [hfail]; simp), if_pos hempty]

/-- Inserting a single record over the empty store and running the
overflow check evicts that record entirely when its own estimate exceeds
the ceiling. -/
theorem overflowTrim_singleton_oversized (e : PostHogEvent)
    (hbig : MAX_STORED_SIZE_BYTES < (estimateEventSize e : Int)) :
    (overflowTrim (insertEvent e ⟨[], 0⟩)).events = [] := by
  have hover : MAX_STORED_SIZE_BYTES < (insertEvent e ⟨[], 0⟩).currentSizeBytes := by
    simpa [insertEvent] using hbig
  have hM : MAX_STORED_SIZE_BYTES = 8388608 := MAX_eq
  have hC : CLEANUP_SIZE_BYTES = 2097152 := CLEANUP_eq
  simp only [overflowTrim]
  rw [if_pos hover]
  simp only [cleanupOldEvents]
  rw [show (insertEvent e ⟨[], 0⟩).events = [e] from rfl]
  rw [show ([e] : List PostHogEvent).length = 0 + 1 from rfl]
  rw [cleanupLoop_singleton estimateEventSize _ 0 e (by simp only [insertEvent] at hover ⊢; omega)
    (by simp only [insertEvent] at hover ⊢; omega)]

/-- Records present after a batch insertion either were already present
or have the success-branch shape (`error` and `rawData` absent). -/
theorem insertBatch_mem (env : CaptureEnv) (req : CaptureRequest) :
    ∀ (js : List Json) (i : Nat) (s : StoreState) (e : PostHogEvent),
      e ∈ (insertBatch env req js i s).events →
      e ∈ s.events ∨ (e.error = none ∧ e.rawData = none) := by
  intro js
  induction js with
  | nil => intro i s e h; exact Or.inl h
  | cons j rest ih =>
    intro i s e h
    rcases ih (i + 1) (insertEvent (buildDecodedEvent env req i j) s) e h with h2 | h2
    · rcases List.mem_cons.mp h2 with h3 | h3
      · subst h3; exact Or.inr ⟨rfl, rfl⟩
      · exact Or.inl h3
    · exact Or.inr h2

/-- Records present after the decode-and-insert phase either were
already present or have one of the two constructed shapes. -/
theorem captureDecodePhase_mem (env : CaptureEnv) (req : CaptureRequest)
    (s : StoreState) (e : PostHogEvent)
    (h : e ∈ (captureDecodePhase env req s).events) :
    e ∈ s.events ∨ insertedShape e := by
  unfold captureDecodePhase at h
  revert h
  split
  · split
    · intro h
      rcases insertBatch_mem env req _ 0 s e h with h2 | h2
      · exact Or.inl h2
      · exact Or.inr (Or.inl h2)
    · intro h; exact Or.inl h
  · intro h
    rcases List.mem_cons.mp h with h2 | h2
    · subst h2; exact Or.inr (Or.inr ⟨rfl, rfl, rfl⟩)
    · exact Or.inl h2

/-- Every primitive mutation preserves the ghost-tag invariant: new
records receive the current counter (largest tag) at the head, and
eviction only keeps a prefix of the list. -/
theorem applyTaggedOp_inv {st : Nat × List (Nat × PostHogEvent)} (op : StoreOp)
    (h : tagInv st) : tagInv (applyTaggedOp st op) := by
  obtain ⟨hbound, hpair⟩ := h
  cases op with
  | insert e =>
    show tagInv (st.1 + 1, (st.1, e) :: st.2)
    constructor
    · intro p hp
      rcases List.mem_cons.mp hp with h2 | h2
      · subst h2; omega
      · exact Nat.lt_succ_of_lt (hbound p h2)
    · exact List.pairwise_cons.mpr ⟨fun q hq => hbound q hq, hpair⟩
  | evict b =>
    have hpre := (cleanupLoop_spec (fun p => estimateEventSize p.2) b
      st.2.length st.2 0 le_rfl).1
    show tagInv (st.1, (cleanupLoop (fun p => estimateEventSize p.2) b st.2.length st.2 0).1)
    constructor
    · intro p hp
      exact hbound p (hpre.subset hp)
    · exact hpair.sublist hpre.sublist
  | clearAll =>
    show tagInv (st.1, [])
    exact ⟨by simp, by simp⟩

/-- The ghost-tag invariant holds after any sequence of primitive
mutations from the empty store. -/
theorem runTagged_inv (ops : List StoreOp) : tagInv (runTagged ops) := by
  have hgen : ∀ (l : List StoreOp) (st : Nat × List (Nat × PostHogEvent)),
      tagInv st → tagInv (l.foldl applyTaggedOp st) := by
    intro l
    induction l with
    | nil => intro st h; exact h
    | cons op rest ih => intro st h; exact ih _ (applyTaggedOp_inv op h)
  exact hgen ops (0, []) ⟨by simp, by simp⟩

/-- Claim C3: for every store state and every backing-store behaviour
(including one that never accepts a save), `persistEventsWithTrim`
terminates with a success or a reported failure within at most 6 save
attempts; and when a save fails while the event list is already empty,
it gives up immediately — after that single attempt — rather than
looping. -/
theorem persist_with_trim_bounded_attempts :
    (∀ (save : Nat → List PostHogEvent → Bool) (s : StoreState),
      (persistEventsWithTrim save s).2.2 ≤ 6) ∧
    (∀ (save : Nat → List PostHogEvent → Bool) (s : StoreState),
      s.events = [] → save 0 s.events = false →
      (persistEventsWithTrim save s).2.1 = PersistResult.emptyFailure ∧
      (persistEventsWithTrim save s).2.2 = 1) := by
  constructor
  · intro save s
    simpa using persistLoop_calls_le save 6 s 0
  · intro save s hempty hfail
    have h : persistEventsWithTrim save s = (s, PersistResult.emptyFailure, 1) := by
      unfold persistEventsWithTrim
      rw [show (6 : Nat) = 5 + 1 from rfl]
      exact persistLoop_fail_empty save 5 s 0 (by rw [hempty]; rfl) hfail
    rw [h]
    exact ⟨rfl, rfl⟩

/-- Claim C3 witness: a backing store that never accepts, against an
already-empty store, is reported as a failure after exactly one attempt,
within the 6-attempt cap. -/
theorem persist_with_trim_bounded_attempts_witness :
    ((⟨[], 0⟩ : StoreState).events = [] ∧
      (fun _ _ => false : Nat → List PostHogEvent → Bool) 0
        (⟨[], 0⟩ : StoreState).events = false) ∧
    (persistEventsWithTrim (fun _ _ => false) ⟨[], 0⟩).2.1 = PersistResult.emptyFailure ∧
    (persistEventsWithTrim (fun _ _ => false) ⟨[], 0⟩).2.2 = 1 ∧
    (persistEventsWithTrim (fun _ _ => false) ⟨[], 0⟩).2.2 ≤ 6 := by
  refine ⟨⟨rfl, rfl⟩, ?_, ?_, ?_⟩
  · exact (persist_with_trim_bounded_attempts.2 (fun _ _ => false) ⟨[], 0⟩ rfl rfl).1
  · exact (persist_with_trim_bounded_attempts.2 (fun _ _ => false) ⟨[], 0⟩ rfl rfl).2
  · exact persist_with_trim_bounded_attempts.1 (fun _ _ => false) ⟨[], 0⟩

/-- Claim C4: when three dispatcher actions (`get`, `clear`, `capture`
each run the same `ensureEventsLoaded` first) all start before the first
load resolves, each of the three awaits the one shared load promise
(id 0) and exactly one backing-store load call has been issued. -/
theorem single_flight_load :
    (ensureEventsLoadedStart initLoader).2 = AwaitTarget.promise 0 ∧
    (ensureEventsLoadedStart (ensureEventsLoadedStart initLoader).1).2
      = AwaitTarget.promise 0 ∧
    (ensureEventsLoadedStart
        (ensureEventsLoadedStart (ensureEventsLoadedStart initLoader).1).1).2
      = AwaitTarget.promise 0 ∧
    (ensureEventsLoadedStart
        (ensureEventsLoadedStart (ensureEventsLoadedStart initLoader).1).1).1.loadCalls
      = 1 :=
  ⟨rfl, rfl, rfl, rfl⟩

/-- Claim C5: at every quiescent point — after the load completes and
after each completed dispatcher action — the store's running total
equals the sum of the size estimates of all held records, and the
running total is never negative. -/
theorem running_total_matches_sum (stored : Option (List PostHogEvent))
    (save : Nat → List PostHogEvent → Bool) (ops : List DispatchOp) :
    sizeInv (runOps (ensureEventsLoaded stored save) ops) ∧
    0 ≤ (runOps (ensureEventsLoaded stored save) ops).currentSizeBytes := by
  have h := runOps_sizeInv ops _ (ensureEventsLoaded_sizeInv stored save)
  refine ⟨h, ?_⟩
  unfold sizeInv at h
  rw [h]
  exact Int.natCast_nonneg _

/-- Claim C6: for every sequence of store mutations and every pair of
surviving records, the one inserted later (larger insertion tag) sits
strictly closer to the head: at any two positions `i < j` of the list,
the record at `j` carries a smaller insertion tag than the record at
`i`.  Insertion is always at the head and eviction always removes from
the tail, so relative order of survivors is never disturbed. -/
theorem newer_events_closer_to_head (ops : List StoreOp) (i j : Nat)
    (d : Nat × PostHogEvent) (hij : i < j) (hj : j < (runTagged ops).2.length) :
    ((runTagged ops).2.getD j d).1 < ((runTagged ops).2.getD i d).1 := by
  have hi : i < (runTagged ops).2.length := lt_trans hij hj
  rw [List.getD_eq_getElem _ d hj, List.getD_eq_getElem _ d hi]
  exact List.pairwise_iff_get.mp (runTagged_inv ops).2 ⟨i, hi⟩ ⟨j, hj⟩ hij

/-- Claim C6 witness: after two insertions, the earlier record (tag 0)
sits at position 1 and the later record (tag 1) at position 0. -/
theorem newer_events_closer_to_head_witness :
    (0 < 1 ∧ 1 < (runTagged [StoreOp.insert tinyEvent, StoreOp.insert tinyEvent]).2.length) ∧
    ((runTagged [StoreOp.insert tinyEvent, StoreOp.insert tinyEvent]).2.getD 1 (0, tinyEvent)).1
      < ((runTagged [StoreOp.insert tinyEvent, StoreOp.insert tinyEvent]).2.getD 0
          (0, tinyEvent)).1 := by
  have hj : 1 < (runTagged [StoreOp.insert tinyEvent, StoreOp.insert tinyEvent]).2.length := by
    rw [show (runTagged [StoreOp.insert tinyEvent, StoreOp.insert tinyEvent]).2.length = 2
      from rfl]
    norm_num
  exact ⟨⟨Nat.zero_lt_one, hj⟩,
    newer_events_closer_to_head [StoreOp.insert tinyEvent, StoreOp.insert tinyEvent]
      0 1 (0, tinyEvent) Nat.zero_lt_one hj⟩

/-- Claim C7: for every capture request, every decode outcome and every
backing-store behaviour, the dispatcher responds to `captureEvent` with
`success = true` unconditionally. -/
theorem capture_always_acknowledges (env : CaptureEnv) (req : CaptureRequest)
    (s : StoreState) : (captureStep env req s).2 = true :=
  rfl

/-- Claim C10: when the payload decodes without error to a falsy JSON
value (`null`, `false`, `0`, or the empty string), no record at all is
inserted — the resulting events are a prefix of the previous ones
(eviction may still run, insertion never happens) — and the dispatcher
still responds `success = true`. -/
theorem falsy_decode_inserts_nothing (env : CaptureEnv) (req : CaptureRequest)
    (s : StoreState) (j : Json) (hdec : env.decode req.data = Except.ok j)
    (hfalsy : j.truthy = false) :
    (captureStep env req s).1.events <+: s.events ∧ (captureStep env req s).2 = true := by
  have hphase : captureDecodePhase env req s = s := by
    unfold captureDecodePhase
    rw [hdec]
    show (if j.truthy = true then insertBatch env req (batchToList j) 0 s else s) = s
    rw [hfalsy]
    simp
  refine ⟨?_, rfl⟩
  show (persistEventsWithTrim env.save
    (overflowTrim (captureDecodePhase env req s))).1.events <+: s.events
  rw [hphase]
  exact (persistLoop_front env.save 6 _ 0).trans (overflowTrim_front s)

/-- Claim C10 witness: decoding to the falsy value `null` over the empty
store leaves the store unchanged and still acknowledges. -/
theorem falsy_decode_inserts_nothing_witness :
    (constEnv (fun _ => Except.ok Json.null)).decode [] = Except.ok Json.null ∧
    Json.truthy Json.null = false ∧
    (captureStep (constEnv (fun _ => Except.ok Json.null)) ⟨"", [], none⟩ ⟨[], 0⟩).1.events
      <+: (⟨[], 0⟩ : StoreState).events ∧
    (captureStep (constEnv (fun _ => Except.ok Json.null)) ⟨"", [], none⟩ ⟨[], 0⟩).2
      = true := by
  refine ⟨rfl, rfl, ?_, ?_⟩
  · exact (falsy_decode_inserts_nothing (constEnv (fun _ => Except.ok Json.null))
      ⟨"", [], none⟩ ⟨[], 0⟩ Json.null rfl rfl).1
  · exact (falsy_decode_inserts_nothing (constEnv (fun _ => Except.ok Json.null))
      ⟨"", [], none⟩ ⟨[], 0⟩ Json.null rfl rfl).2

/-- Claim C1 (amended): when the running total agrees with the sum of
estimates, after each evict-to-budget call from the capture overflow
check or the load path the running total is at most the ceiling (in
particular, "total at most ceiling or store empty" holds); and a single
record whose estimated size exceeds the ceiling is evicted — leaving the
store empty — rather than retained alone, so the total never exceeds the
ceiling after the call. -/
theorem budget_after_overflow_trim (s : StoreState) (h : sizeInv s) :
    (overflowTrim s).currentSizeBytes ≤ MAX_STORED_SIZE_BYTES ∧
    (∀ e, s.events = [e] → MAX_STORED_SIZE_BYTES < (estimateEventSize e : Int) →
      (overflowTrim s).events = []) := by
  refine ⟨overflowTrim_le h, ?_⟩
  intro e hse hbig
  have hM : MAX_STORED_SIZE_BYTES = 8388608 := MAX_eq
  have hC : CLEANUP_SIZE_BYTES = 2097152 := CLEANUP_eq
  have hc : s.currentSizeBytes = (estimateEventSize e : Int) := by
    unfold sizeInv at h
    rw [hse] at h
    simpa [sumEst] using h
  have hover : MAX_STORED_SIZE_BYTES < s.currentSizeBytes := by omega
  simp only [overflowTrim]
  rw [if_pos hover]
  simp only [cleanupOldEvents]
  rw [hse, hc]
  rw [show ([e] : List PostHogEvent).length = 0 + 1 from rfl]
  rw [cleanupLoop_singleton estimateEventSize _ 0 e (by omega) (by omega)]

/-- Claim C1 witness: a store holding one 9437184-byte record (total
above the 8388608-byte ceiling) is driven to an empty store with total
at most the ceiling. -/
theorem budget_after_overflow_trim_witness :
    sizeInv ⟨[rawEvt 9437184], 9437184⟩ ∧
    (overflowTrim ⟨[rawEvt 9437184], 9437184⟩).currentSizeBytes ≤ MAX_STORED_SIZE_BYTES ∧
    (overflowTrim ⟨[rawEvt 9437184], 9437184⟩).events = [] := by
  have hinv : sizeInv ⟨[rawEvt 9437184], 9437184⟩ := by
    simp [sizeInv, sumEst, est_rawEvt]
  refine ⟨hinv, (budget_after_overflow_trim _ hinv).1, ?_⟩
  exact (budget_after_overflow_trim _ hinv).2 (rawEvt 9437184) rfl
    (by rw [est_rawEvt, MAX_eq]; norm_num)

/-- Claim C1 counterexample: a single inserted record whose estimated
size (9437184 bytes) exceeds the ceiling is not retained alone — the
evict-to-budget call run by the capture overflow check removes it,
leaving the store empty, contradicting the claimed degenerate case. -/
theorem oversized_record_evicted_not_retained :
    MAX_STORED_SIZE_BYTES < (estimateEventSize (rawEvt 9437184) : Int) ∧
    (insertEvent (rawEvt 9437184) ⟨[], 0⟩).events = [rawEvt 9437184] ∧
    (overflowTrim (insertEvent (rawEvt 9437184) ⟨[], 0⟩)).events = [] := by
  have hbig : MAX_STORED_SIZE_BYTES < (estimateEventSize (rawEvt 9437184) : Int) := by
    rw [est_rawEvt, MAX_eq]; norm_num
  exact ⟨hbig, rfl, overflowTrim_singleton_oversized _ hbig⟩

/-- Claim C8 (amended): when decode fails, the error branch inserts
exactly one record — with `error` set to the failure reason and
`rawData` equal to the original input bytes — provided the post-insert
total stays within the ceiling and the backing store accepts the save;
otherwise budget eviction may remove records, including the new one. -/
theorem decode_failure_record_inserted (env : CaptureEnv) (req : CaptureRequest)
    (s : StoreState) (reason : String)
    (hdec : env.decode req.data = Except.error reason)
    (hfits : s.currentSizeBytes + (estimateEventSize (buildErrorEvent env req reason) : Int)
      ≤ MAX_STORED_SIZE_BYTES)
    (hsave : ∀ (n : Nat) (evs : List PostHogEvent), env.save n evs = true) :
    (captureStep env req s).1.events = buildErrorEvent env req reason :: s.events ∧
    (buildErrorEvent env req reason).error = some reason ∧
    (buildErrorEvent env req reason).rawData = some req.data := by
  refine ⟨?_, rfl, rfl⟩
  have hphase : captureDecodePhase env req s = insertEvent (buildErrorEvent env req reason) s := by
    unfold captureDecodePhase
    rw [hdec]
  have htrim : overflowTrim (insertEvent (buildErrorEvent env req reason) s)
      = insertEvent (buildErrorEvent env req reason) s := by
    simp only [overflowTrim]
    rw [if_neg (by simp only [insertEvent]; omega)]
  show (persistEventsWithTrim env.save
    (overflowTrim (captureDecodePhase env req s))).1.events = _
  rw [hphase, htrim, persistEventsWithTrim_save_ok _ _ (hsave _ _)]
  rfl

/-- Claim C8 witness: a three-byte undecodable payload over the empty
store inserts exactly one error record carrying the original bytes. -/
theorem decode_failure_record_inserted_witness :
    (constEnv (fun _ => Except.error "bad")).decode [1, 2, 3] = Except.error "bad" ∧
    ((⟨[], 0⟩ : StoreState).currentSizeBytes +
        (estimateEventSize (buildErrorEvent (constEnv (fun _ => Except.error "bad"))
          ⟨"", [1, 2, 3], none⟩ "bad") : Int) ≤ MAX_STORED_SIZE_BYTES) ∧
    (captureStep (constEnv (fun _ => Except.error "bad")) ⟨"", [1, 2, 3], none⟩
        ⟨[], 0⟩).1.events
      = buildErrorEvent (constEnv (fun _ => Except.error "bad")) ⟨"", [1, 2, 3], none⟩ "bad"
        :: (⟨[], 0⟩ : StoreState).events := by
  have hfits : ((⟨[], 0⟩ : StoreState).currentSizeBytes +
      (estimateEventSize (buildErrorEvent (constEnv (fun _ => Except.error "bad"))
        ⟨"", [1, 2, 3], none⟩ "bad") : Int) ≤ MAX_STORED_SIZE_BYTES) := by decide
  exact ⟨rfl, hfits,
    (decode_failure_record_inserted (constEnv (fun _ => Except.error "bad"))
      ⟨"", [1, 2, 3], none⟩ ⟨[], 0⟩ "bad" rfl hfits (fun _ _ => rfl)).1⟩

/-- Claim C8 counterexample: a capture whose payload fails decompression
does not always leave the store one record richer — a 9437184-byte raw
payload is inserted as an error record and then immediately evicted by
the overflow check, so the store gains no record at all. -/
theorem decode_failure_record_can_be_evicted :
    failEnv.decode c8Req.data = Except.error "boom" ∧
    (captureStep failEnv c8Req ⟨[], 0⟩).1.events = [] := by
  refine ⟨rfl, ?_⟩
  have hbig : MAX_STORED_SIZE_BYTES < (estimateEventSize (rawEvt 9437184) : Int) := by
    rw [est_rawEvt, MAX_eq]; norm_num
  have hphase : captureDecodePhase failEnv c8Req ⟨[], 0⟩
      = insertEvent (rawEvt 9437184) ⟨[], 0⟩ := rfl
  show (persistEventsWithTrim failEnv.save
    (overflowTrim (captureDecodePhase failEnv c8Req ⟨[], 0⟩))).1.events = []
  rw [persistEventsWithTrim_save_ok failEnv.save
    (overflowTrim (captureDecodePhase failEnv c8Req ⟨[], 0⟩)) rfl]
  show (overflowTrim (captureDecodePhase failEnv c8Req ⟨[], 0⟩)).events = []
  rw [hphase]
  exact overflowTrim_singleton_oversized (rawEvt 9437184) hbig

/-- Claim C9 (amended): every record the capture handler inserts has one
of the two constructed shapes — error branch: `error` and `rawData`
present with `decoded` null; success branch: `error` and `rawData`
absent with `decoded` equal to a decoded batch element, which may itself
be `null` (so the spec's "never neither" fails exactly when the batch
contains a null element). -/
theorem inserted_record_shapes (env : CaptureEnv) (req : CaptureRequest)
    (s : StoreState) (e : PostHogEvent)
    (h : e ∈ (captureStep env req s).1.events) :
    e ∈ s.events ∨ insertedShape e := by
  have h1 : e ∈ (overflowTrim (captureDecodePhase env req s)).events :=
    (persistLoop_front env.save 6 _ 0).subset h
  have h2 : e ∈ (captureDecodePhase env req s).events :=
    (overflowTrim_front _).subset h1
  exact captureDecodePhase_mem env req s e h2

/-- Claim C9 witness: the error record inserted for an undecodable
one-byte payload is present afterwards and has one of the constructed
shapes. -/
theorem inserted_record_shapes_witness :
    buildErrorEvent (constEnv (fun _ => Except.error "bad")) ⟨"", [7], none⟩ "bad"
      ∈ (captureStep (constEnv (fun _ => Except.error "bad")) ⟨"", [7], none⟩
          ⟨[], 0⟩).1.events ∧
    (buildErrorEvent (constEnv (fun _ => Except.error "bad")) ⟨"", [7], none⟩ "bad"
        ∈ (⟨[], 0⟩ : StoreState).events ∨
      insertedShape (buildErrorEvent (constEnv (fun _ => Except.error "bad"))
        ⟨"", [7], none⟩ "bad")) := by
  have hev : (captureStep (constEnv (fun _ => Except.error "bad")) ⟨"", [7], none⟩
      ⟨[], 0⟩).1.events
      = [buildErrorEvent (constEnv (fun _ => Except.error "bad")) ⟨"", [7], none⟩ "bad"] :=
    rfl
  have hmem : buildErrorEvent (constEnv (fun _ => Except.error "bad")) ⟨"", [7], none⟩ "bad"
      ∈ (captureStep (constEnv (fun _ => Except.error "bad")) ⟨"", [7], none⟩
          ⟨[], 0⟩).1.events := by
    rw [hev]
    exact List.mem_singleton_self _
  exact ⟨hmem, inserted_record_shapes (constEnv (fun _ => Except.error "bad"))
    ⟨"", [7], none⟩ ⟨[], 0⟩ _ hmem⟩

/-- Claim C9 counterexample: a capture whose payload decodes to the
array `[null]` inserts a record with `decoded` null, no `error` and no
`rawData` — a stored record satisfying neither of the claim's two
exclusive shapes. -/
theorem null_batch_element_breaks_exclusivity :
    (captureStep c9Env c9Req ⟨[], 0⟩).1.events = [nullRec] ∧
    nullRec.decoded = Json.null ∧ nullRec.error = none ∧ nullRec.rawData = none ∧
    ¬ exclusiveShape nullRec := by
  refine ⟨rfl, rfl, rfl, rfl, ?_⟩
  intro hex
  rcases hex with ⟨h1, -, -⟩ | ⟨-, h2, -⟩
  · exact h1 rfl
  · simp [nullRec] at h2

/-- Claim C2 (amended): when an insert drives the running total over the
ceiling, the capture overflow check targets
`currentSizeBytes - MAX_STORED_SIZE_BYTES + CLEANUP_SIZE_BYTES` bytes
for eviction; the larger-of(2 MiB target-free, 25% of current total)
amount is the one used on each persistence-save retry — and that retry
amount is exactly the formula the spec states for the overflow path. -/
theorem eviction_targets_by_path :
    (∀ s : StoreState, MAX_STORED_SIZE_BYTES < s.currentSizeBytes →
      overflowTrim s =
        cleanupOldEvents (s.currentSizeBytes - MAX_STORED_SIZE_BYTES + CLEANUP_SIZE_BYTES) s) ∧
    (∀ (save : Nat → List PostHogEvent → Bool) (fuel : Nat) (s : StoreState) (calls : Nat),
      save calls s.events = false → s.events.length ≠ 0 →
      persistLoop save (fuel + 1) s calls =
        persistLoop save fuel (cleanupOldEvents (retryEvictAmount s.currentSizeBytes) s)
          (calls + 1)) ∧
    retryEvictAmount = claimedOverflowTarget := by
  refine ⟨?_, ?_, rfl⟩
  · intro s hover
    simp only [overflowTrim]
    rw [if_pos hover]
  · intro save fuel s calls hfail hne
    rw [persistLoop, if_neg (by rw [hfail]; simp), if_neg hne]

/-- Claim C2 witness: a store at total 9437184 is over the ceiling and
the overflow check evicts with the `total - ceiling + target-free`
amount; a failing save over a nonempty store retries after evicting the
retry amount. -/
theorem eviction_targets_by_path_witness :
    (MAX_STORED_SIZE_BYTES < (⟨[], 9437184⟩ : StoreState).currentSizeBytes ∧
      overflowTrim ⟨[], 9437184⟩ =
        cleanupOldEvents ((⟨[], 9437184⟩ : StoreState).currentSizeBytes
          - MAX_STORED_SIZE_BYTES + CLEANUP_SIZE_BYTES) ⟨[], 9437184⟩) ∧
    ((fun _ _ => false : Nat → List PostHogEvent → Bool) 0
        (⟨[tinyEvent], 0⟩ : StoreState).events = false ∧
      (⟨[tinyEvent], 0⟩ : StoreState).events.length ≠ 0 ∧
      persistLoop (fun _ _ => false) (0 + 1) ⟨[tinyEvent], 0⟩ 0 =
        persistLoop (fun _ _ => false) 0
          (cleanupOldEvents (retryEvictAmount (⟨[tinyEvent], 0⟩ : StoreState).currentSizeBytes)
            ⟨[tinyEvent], 0⟩) (0 + 1)) := by
  have hover : MAX_STORED_SIZE_BYTES < (⟨[], 9437184⟩ : StoreState).currentSizeBytes := by
    rw [MAX_eq]; norm_num
  refine ⟨⟨hover, eviction_targets_by_path.1 ⟨[], 9437184⟩ hover⟩, rfl, by norm_num, ?_⟩
  exact eviction_targets_by_path.2.1 (fun _ _ => false) 0 ⟨[tinyEvent], 0⟩ 0 rfl (by norm_num)

/-- Claim C2 counterexample: an insert that raises the total to 9437184
(over the 8388608 ceiling) is followed by an eviction targeting
9437184 - 8388608 + 2097152 = 3145728 bytes — three tail records are
evicted, leaving 2 — whereas the claimed amount
max(2097152, 9437184/4) = 2359296 differs and would evict only two tail
records, leaving 3. -/
theorem overflow_target_differs_from_spec_formula :
    MAX_STORED_SIZE_BYTES < (captureDecodePhase failEnv c2Req c2Pre).currentSizeBytes ∧
    claimedOverflowTarget (captureDecodePhase failEnv c2Req c2Pre).currentSizeBytes ≠
      (captureDecodePhase failEnv c2Req c2Pre).currentSizeBytes
        - MAX_STORED_SIZE_BYTES + CLEANUP_SIZE_BYTES ∧
    (captureStep failEnv c2Req c2Pre).1.events.length = 2 ∧
    (cleanupOldEvents
        (claimedOverflowTarget (captureDecodePhase failEnv c2Req c2Pre).currentSizeBytes)
        (captureDecodePhase failEnv c2Req c2Pre)).events.length = 3 := by
  have hc : (captureDecodePhase failEnv c2Req c2Pre).currentSizeBytes = 9437184 := by
    show (insertEvent (rawEvt 4718592) c2Pre).currentSizeBytes = 9437184
    show c2Pre.currentSizeBytes + (estimateEventSize (rawEvt 4718592) : Int) = 9437184
    rw [est_rawEvt]
    norm_num [c2Pre]
  have hev : (captureDecodePhase failEnv c2Req c2Pre).events
      = [rawEvt 4718592, rawEvt 1179648, rawEvt 1179648, rawEvt 1179648, rawEvt 1179648] :=
    rfl
  have hloop1 : cleanupLoop estimateEventSize 3145728 5
      [rawEvt 4718592, rawEvt 1179648, rawEvt 1179648, rawEvt 1179648, rawEvt 1179648] 0
      = ([rawEvt 4718592, rawEvt 1179648],
          0 + estimateEventSize (rawEvt 1179648) + estimateEventSize (rawEvt 1179648)
            + estimateEventSize (rawEvt 1179648)) := by
    calc (cleanupLoop estimateEventSize 3145728 5
          [rawEvt 4718592, rawEvt 1179648, rawEvt 1179648, rawEvt 1179648, rawEvt 1179648] 0)
        = (cleanupLoop estimateEventSize 3145728 4
            [rawEvt 4718592, rawEvt 1179648, rawEvt 1179648, rawEvt 1179648]
            (0 + estimateEventSize (rawEvt 1179648))) :=
          cleanupLoop_concat estimateEventSize 3145728 4
            [rawEvt 4718592, rawEvt 1179648, rawEvt 1179648, rawEvt 1179648]
            (rawEvt 1179648) 0 (by norm_num)
      _ = (cleanupLoop estimateEventSize 3145728 3
            [rawEvt 4718592, rawEvt 1179648, rawEvt 1179648]
            (0 + estimateEventSize (rawEvt 1179648) + estimateEventSize (rawEvt 1179648))) :=
          cleanupLoop_concat estimateEventSize 3145728 3
            [rawEvt 4718592, rawEvt 1179648, rawEvt 1179648]
            (rawEvt 1179648) (0 + estimateEventSize (rawEvt 1179648))
            (by rw [est_rawEvt]; norm_num)
      _ = (cleanupLoop estimateEventSize 3145728 2
            [rawEvt 4718592, rawEvt 1179648]
            (0 + estimateEventSize (rawEvt 1179648) + estimateEventSize (rawEvt 1179648)
              + estimateEventSize (rawEvt 1179648))) :=
          cleanupLoop_concat estimateEventSize 3145728 2
            [rawEvt 4718592, rawEvt 1179648] (rawEvt 1179648)
            (0 + estimateEventSize (rawEvt 1179648) + estimateEventSize (rawEvt 1179648))
            (by rw [est_rawEvt]; norm_num)
      _ = ([rawEvt 4718592, rawEvt 1179648],
            0 + estimateEventSize (rawEvt 1179648) + estimateEventSize (rawEvt 1179648)
              + estimateEventSize (rawEvt 1179648)) :=
          cleanupLoop_stop estimateEventSize 3145728 2 [rawEvt 4718592, rawEvt 1179648]
            (0 + estimateEventSize (rawEvt 1179648) + estimateEventSize (rawEvt 1179648)
              + estimateEventSize (rawEvt 1179648))
            (by rw [est_rawEvt]; norm_num)
  have hloop2 : cleanupLoop estimateEventSize 2359296 5
      [rawEvt 4718592, rawEvt 1179648, rawEvt 1179648, rawEvt 1179648, rawEvt 1179648] 0
      = ([rawEvt 4718592, rawEvt 1179648, rawEvt 1179648],
          0 + estimateEventSize (rawEvt 1179648) + estimateEventSize (rawEvt 1179648)) := by
    calc (cleanupLoop estimateEventSize 2359296 5
          [rawEvt 4718592, rawEvt 1179648, rawEvt 1179648, rawEvt 1179648, rawEvt 1179648] 0)
        = (cleanupLoop estimateEventSize 2359296 4
            [rawEvt 4718592, rawEvt 1179648, rawEvt 1179648, rawEvt 1179648]
            (0 + estimateEventSize (rawEvt 1179648))) :=
          cleanupLoop_concat estimateEventSize 2359296 4
            [rawEvt 4718592, rawEvt 1179648, rawEvt 1179648, rawEvt 1179648]
            (rawEvt 1179648) 0 (by norm_num)
      _ = (cleanupLoop estimateEventSize 2359296 3
            [rawEvt 4718592, rawEvt 1179648, rawEvt 1179648]
            (0 + estimateEventSize (rawEvt 1179648) + estimateEventSize (rawEvt 1179648))) :=
          cleanupLoop_concat estimateEventSize 2359296 3
            [rawEvt 4718592, rawEvt 1179648, rawEvt 1179648]
            (rawEvt 1179648) (0 + estimateEventSize (rawEvt 1179648))
            (by rw [est_rawEvt]; norm_num)
      _ = ([rawEvt 4718592, rawEvt 1179648, rawEvt 1179648],
            0 + estimateEventSize (rawEvt 1179648) + estimateEventSize (rawEvt 1179648)) :=
          cleanupLoop_stop estimateEventSize 2359296 3
            [rawEvt 4718592, rawEvt 1179648, rawEvt 1179648]
            (0 + estimateEventSize (rawEvt 1179648) + estimateEventSize (rawEvt 1179648))
            (by rw [est_rawEvt]; norm_num)
  have hct : claimedOverflowTarget (captureDecodePhase failEnv c2Req c2Pre).currentSizeBytes
      = 2359296 := by
    rw [hc]
    rw [show claimedOverflowTarget 9437184 = 2359296 from by decide]
  have hb1 : (captureDecodePhase failEnv c2Req c2Pre).currentSizeBytes
      - MAX_STORED_SIZE_BYTES + CLEANUP_SIZE_BYTES = 3145728 := by
    rw [hc, MAX_eq, CLEANUP_eq]
    norm_num
  have hlen : (captureDecodePhase failEnv c2Req c2Pre).events.length = 5 := by
    rw [hev]
    rfl
  have hcl1 : cleanupLoop estimateEventSize 3145728
      (captureDecodePhase failEnv c2Req c2Pre).events.length
      (captureDecodePhase failEnv c2Req c2Pre).events 0
      = ([rawEvt 4718592, rawEvt 1179648],
          0 + estimateEventSize (rawEvt 1179648) + estimateEventSize (rawEvt 1179648)
            + estimateEventSize (rawEvt 1179648)) := by
    rw [hlen, hev, hloop1]
  have hcl2 : cleanupLoop estimateEventSize 2359296
      (captureDecodePhase failEnv c2Req c2Pre).events.length
      (captureDecodePhase failEnv c2Req c2Pre).events 0
      = ([rawEvt 4718592, rawEvt 1179648, rawEvt 1179648],
          0 + estimateEventSize (rawEvt 1179648) + estimateEventSize (rawEvt 1179648)) := by
    rw [hlen, hev, hloop2]
  have heval1 : (cleanupOldEvents 3145728 (captureDecodePhase failEnv c2Req c2Pre)).events
      = [rawEvt 4718592, rawEvt 1179648] :=
    cleanupOldEvents_events_eq hcl1
  have heval2 : (cleanupOldEvents 2359296 (captureDecodePhase failEnv c2Req c2Pre)).events
      = [rawEvt 4718592, rawEvt 1179648, rawEvt 1179648] :=
    cleanupOldEvents_events_eq hcl2
  refine ⟨by rw [hc, MAX_eq]; norm_num, by rw [hct, hb1]; norm_num, ?_, ?_⟩
  · show (persistEventsWithTrim failEnv.save
      (overflowTrim (captureDecodePhase failEnv c2Req c2Pre))).1.events.length = 2
    rw [persistEventsWithTrim_save_ok failEnv.save
      (overflowTrim (captureDecodePhase failEnv c2Req c2Pre)) rfl]
    show (overflowTrim (captureDecodePhase failEnv c2Req c2Pre)).events.length = 2
    simp only [overflowTrim]
    rw [if_pos (by rw [hc, MAX_eq]; norm_num)]
    rw [hb1, heval1]
    rfl
  · rw [hct, heval2]
    rfl

end PosthogDebugger
